import Mathlib

/-!
Shallow embedding of the core of the foyer hybrid disk-backed cache engine
(crates `foyer-storage` / `foyer-common`), covering the region state machine
(`region.rs`), the on-disk entry framing and the store facade (`generic.rs`),
and the reclaimer runner (`reclaimer.rs`).

Machine integers are embedded as `Nat` with explicit `% 2 ^ w` at the points
where the source fixes a width.  Byte buffers are `List Nat` with every byte
in `[0, 256)`.  Rust panics (failed `unwrap`, out-of-bounds slicing, byte-buf
exhaustion) are embedded as the outer `Option` layer of the affected
operations: `none` means the Rust code would panic.  Fallible Rust code
(`Result`) is embedded as `Except`.
-/

set_option maxRecDepth 100000

namespace Foyer

/-! ### Byte-level utilities (the `bytes::Buf`/`BufMut` boundary) -/

/-- Big-endian bytes of a 32-bit value, as written by `put_u32`. -/
def be32 (n : Nat) : List Nat :=
  [n / 2 ^ 24 % 256, n / 2 ^ 16 % 256, n / 2 ^ 8 % 256, n % 256]

/-- Big-endian bytes of a 64-bit value, as written by `put_u64`. -/
def be64 (n : Nat) : List Nat :=
  [n / 2 ^ 56 % 256, n / 2 ^ 48 % 256, n / 2 ^ 40 % 256, n / 2 ^ 32 % 256,
   n / 2 ^ 24 % 256, n / 2 ^ 16 % 256, n / 2 ^ 8 % 256, n % 256]

/-- Value of a big-endian byte string, as read by `get_u32`/`get_u64`. -/
def beVal (l : List Nat) : Nat :=
  l.foldl (fun acc b => acc * 256 + b) 0

/-- Split `n` leading bytes off a buffer; `none` embeds the panic of
`bytes::Buf` when the buffer is exhausted. -/
def takeBytes (n : Nat) (l : List Nat) : Option (List Nat × List Nat) :=
  if n ≤ l.length then some (l.take n, l.drop n) else none

/-- Subslice `buf[start..stop]`; `none` embeds the Rust out-of-bounds panic. -/
def sliceRange (l : List Nat) (start stop : Nat) : Option (List Nat) :=
  if start ≤ stop ∧ stop ≤ l.length then some ((l.drop start).take (stop - start))
  else none

theorem be32_length (n : Nat) : (be32 n).length = 4 := rfl

theorem be64_length (n : Nat) : (be64 n).length = 8 := rfl

theorem takeBytes_append (n : Nat) (l r : List Nat) (h : l.length = n) :
    takeBytes n (l ++ r) = some (l, r) := by
  subst h
  simp [takeBytes, List.take_left, List.drop_left]

theorem beVal_be32 (n : Nat) (h : n < 2 ^ 32) : beVal (be32 n) = n := by
  simp only [be32, beVal, List.foldl]
  omega

theorem beVal_be64 (n : Nat) (h : n < 2 ^ 64) : beVal (be64 n) = n := by
  simp only [be64, beVal, List.foldl]
  omega

/-! ### Errors -/

/-- Error kinds surfaced by the storage core (the shallow image of
`foyer-storage`'s `error::Error` as used by the embedded operations). -/
inductive StoreError where
  | magicMismatch
  | checksumMismatch
  | badCompressionTag
  | codecFailure
  deriving Repr, DecidableEq

/-! ### Compression -/

/-- Modelled from the spec: `compress.rs` is not under `src/`; the spec fixes
the compression tags as `{None = 0, Zstd, Lz4}` (§3) with the low 8 bits of
`magic_and_compression` encoding the tag `∈ {0,1,2}` (§6). -/
inductive Compression where
  | none
  | zstd
  | lz4
  deriving Repr, DecidableEq

/-- Modelled from the spec: the on-disk tag of a compression mode
(`{None = 0, Zstd, Lz4}`). -/
def Compression.toU8 : Compression → Nat
  | .none => 0
  | .zstd => 1
  | .lz4 => 2

/-- Modelled from the spec: decode a compression tag byte; tags outside
`{0,1,2}` are a coding error. -/
def Compression.tryFrom (n : Nat) : Except StoreError Compression :=
  match n with
  | 0 => .ok .none
  | 1 => .ok .zstd
  | 2 => .ok .lz4
  | _ => .error .badCompressionTag

/-! ### Entry header (`generic.rs`) -/

def ENTRY_MAGIC : Nat := 0x97032700

def ENTRY_MAGIC_MASK : Nat := 0xFFFFFF00

/-- On-disk entry header (`EntryHeader` in `generic.rs`). -/
structure EntryHeader where
  key_len : Nat
  value_len : Nat
  sequence : Nat
  checksum : Nat
  compression : Compression
  deriving Repr, DecidableEq

/-- Length of the serialized entry header: `4 + 4 + 8 + 8 + 4`. -/
def EntryHeader.serialized_len : Nat := 4 + 4 + 8 + 8 + 4

/-- Serialization of an entry header (`EntryHeader::write`): big-endian
`key_len`, `value_len`, `sequence`, `checksum`, then
`ENTRY_MAGIC | compression.to_u8()`. -/
def EntryHeader.write (h : EntryHeader) : List Nat :=
  be32 (h.key_len % 2 ^ 32) ++ be32 (h.value_len % 2 ^ 32) ++
    be64 (h.sequence % 2 ^ 64) ++ be64 (h.checksum % 2 ^ 64) ++
    be32 (ENTRY_MAGIC ||| h.compression.toU8)

/-- Deserialization of an entry header (`EntryHeader::read`): reads the five
big-endian fields, rejects the buffer unless
`v & ENTRY_MAGIC_MASK == ENTRY_MAGIC`, and decodes the compression from the
low byte `v as u8`.  The outer `Option` embeds the `bytes::Buf` panic on a
buffer shorter than 28 bytes. -/
def EntryHeader.read (buf : List Nat) : Option (Except StoreError EntryHeader) :=
  match takeBytes 4 buf with
  | Option.none => Option.none
  | some (b0, r0) =>
  match takeBytes 4 r0 with
  | Option.none => Option.none
  | some (b1, r1) =>
  match takeBytes 8 r1 with
  | Option.none => Option.none
  | some (b2, r2) =>
  match takeBytes 8 r2 with
  | Option.none => Option.none
  | some (b3, r3) =>
  match takeBytes 4 r3 with
  | Option.none => Option.none
  | some (b4, _) =>
    let v := beVal b4
    if v &&& ENTRY_MAGIC_MASK ≠ ENTRY_MAGIC then
      some (.error .magicMismatch)
    else
      some ((Compression.tryFrom (v % 256)).map fun c =>
        { key_len := beVal b0, value_len := beVal b1, sequence := beVal b2,
          checksum := beVal b3, compression := c })

/-! ### Region model (`region.rs`) -/

def REGION_MAGIC : Nat := 0x19970327

/-- On-disk region header (`RegionHeader` in `region.rs`). -/
structure RegionHeader where
  magic : Nat
  deriving Repr, DecidableEq

/-- Serialization (`RegionHeader::write`): `put_u64(magic)` into the head of
the buffer, leaving the rest unchanged.  The outer `Option` embeds the
`BufMut` panic on a buffer shorter than 8 bytes. -/
def RegionHeader.write (h : RegionHeader) (buf : List Nat) : Option (List Nat) :=
  if 8 ≤ buf.length then some (be64 (h.magic % 2 ^ 64) ++ buf.drop 8) else Option.none

/-- Deserialization (`RegionHeader::read`): `get_u64` from the head of the
buffer.  Note that this function is infallible in the source and performs no
validation of the magic value. -/
def RegionHeader.read (buf : List Nat) : Option RegionHeader :=
  if 8 ≤ buf.length then some ⟨beVal (buf.take 8)⟩ else Option.none

/-- Device geometry: the device back-end is an external collaborator offering
aligned block I/O (spec §4.1, §6); only its parameters enter the model. -/
structure DeviceParams where
  align : Nat
  regionSize : Nat
  ioSize : Nat
  deriving Repr, DecidableEq

/-- State of one region: the fields of `RegionInner` together with the
region's identifier (`Region::id`) and the on-device bytes of the region
(`disk` stands for the external device's current content at this region; the
`io_size`-chunked physical-read loop of `Region::load` assembles exactly the
requested range of it).  The `wakers` map of `RegionInner` carries scheduler
`Waker`s only, affects none of the fields below, and is omitted. -/
structure RegionState where
  id : Nat
  version : Nat
  buffer : Option (List Nat)
  len : Nat
  capacity : Nat
  writers : Nat
  bufferedReaders : Nat
  physicalReaders : Nat
  disk : List Nat
  deriving Repr, DecidableEq

/-- Constructor `Region::new`: fresh state with `version = 0`, no buffer and
`capacity = device.region_size()`. -/
def Region.new (dev : DeviceParams) (id : Nat) (disk : List Nat) : RegionState :=
  { id := id, version := 0, buffer := Option.none, len := 0,
    capacity := dev.regionSize, writers := 0, bufferedReaders := 0,
    physicalReaders := 0, disk := disk }

/-- A write slice handed out by `Region::allocate`: the buffer range it
covers, the captured `region_id`, `version` and `offset`, and whether its
cleanup closure is still present (it is taken exactly once, on drop). -/
structure WriteSlice where
  sliceStart : Nat
  sliceStop : Nat
  region_id : Nat
  version : Nat
  offset : Nat
  cleanup : Bool
  deriving Repr, DecidableEq

/-- Result of `Region::allocate` (`AllocateResult` in `region.rs`). -/
inductive AllocateResult where
  | ok (slice : WriteSlice)
  | full (slice : WriteSlice) (remain : Nat)
  | none
  deriving Repr, DecidableEq

/-- Allocation (`Region::allocate`): increments `writers`; reserves one
`align` block at the tail of the region for the footer; if
`len + size + align > capacity` returns `Full` with the tail `align` bytes
and `remain = region_size - len`, setting `len = region_size`; otherwise
returns a slice covering `[len, len + size)` and advances `len` by `size`.
The outer `Option` embeds the `buffer.as_mut().unwrap()` panic when no
buffer is attached. -/
def Region.allocate (dev : DeviceParams) (st : RegionState) (size : Nat) :
    Option (AllocateResult × RegionState) :=
  let version := st.version
  let offset := st.len
  let region_id := st.id
  match st.buffer with
  | Option.none => Option.none
  | some _ =>
    if st.len + size + dev.align > st.capacity then
      let remain := dev.regionSize - st.len
      let newLen := dev.regionSize
      some (.full
        { sliceStart := newLen - dev.align, sliceStop := newLen,
          region_id := region_id, version := version, offset := offset,
          cleanup := true } remain,
        { st with writers := st.writers + 1, len := newLen })
    else
      some (.ok
        { sliceStart := offset, sliceStop := offset + size,
          region_id := region_id, version := version, offset := offset,
          cleanup := true },
        { st with writers := st.writers + 1, len := st.len + size })

/-- Cleanup closure of a `WriteSlice` (run on drop): `writers -= 1` and wake
waiters. -/
def Region.releaseWrite (st : RegionState) : RegionState :=
  { st with writers := st.writers - 1 }

/-- Drop of a `WriteSlice` (`impl Drop for WriteSlice`): runs the cleanup
closure if it is still present, taking it so it can never run twice. -/
def WriteSlice.drop (sl : WriteSlice) (st : RegionState) : WriteSlice × RegionState :=
  if sl.cleanup then ({ sl with cleanup := false }, Region.releaseWrite st)
  else (sl, st)

/-- A read slice returned by `Region::load` (`ReadSlice` in `region.rs`):
either a view into the attached dirty buffer or an owned buffer filled by
physical device reads. -/
inductive ReadSlice where
  | slice (bytes : List Nat)
  | owned (bytes : List Nat)
  deriving Repr, DecidableEq

def ReadSlice.bytes : ReadSlice → List Nat
  | .slice b => b
  | .owned b => b

/-- Load (`Region::load`): if `version ≠ 0` and differs from the region's
current version, return `None`; else a buffered read into the attached
buffer (incrementing `buffered_readers`) or a physical read from the device
(incrementing `physical_readers`).  The outer `Option` embeds the
out-of-bounds panic of indexing the attached buffer.  The device boundary is
modelled as always returning the full requested range, so the short-read
path (which restores `physical_readers` and returns `None`) does not arise. -/
def Region.load (st : RegionState) (start stop : Nat) (version : Nat) :
    Option (Option ReadSlice × RegionState) :=
  if version ≠ 0 ∧ version ≠ st.version then some (Option.none, st)
  else
    match st.buffer with
    | some b =>
      match sliceRange b start stop with
      | Option.none => Option.none
      | some bytes =>
        some (some (.slice bytes),
          { st with bufferedReaders := st.bufferedReaders + 1 })
    | Option.none =>
      some (some (.owned ((st.disk.drop start).take (stop - start))),
        { st with physicalReaders := st.physicalReaders + 1 })

/-- Cleanup closure of a buffered `ReadSlice::Slice` (run on drop):
`buffered_readers -= 1`. -/
def Region.releaseBuffered (st : RegionState) : RegionState :=
  { st with bufferedReaders := st.bufferedReaders - 1 }

/-- Cleanup closure of an owned `ReadSlice::Owned` (run on drop):
`physical_readers -= 1`. -/
def Region.releaseOwned (st : RegionState) : RegionState :=
  { st with physicalReaders := st.physicalReaders - 1 }

/-- Drop of a `ReadSlice` (`impl Drop for ReadSlice`): run the matching
cleanup closure. -/
def ReadSlice.release (sl : ReadSlice) (st : RegionState) : RegionState :=
  match sl with
  | .slice _ => Region.releaseBuffered st
  | .owned _ => Region.releaseOwned st

/-- Buffer attachment (`Region::attach_buffer` composed with
`RegionInner::attach_buffer`): requires `writers = 0`,
`buffered_readers = 0`, no buffer attached and `buf.len() = capacity`
(assertions in the source, embedded as the `Option` guard together with the
8-byte header-write panic); writes the `RegionHeader` with `REGION_MAGIC`
into the head of the buffer and sets `len = align`. -/
def Region.attach_buffer (dev : DeviceParams) (st : RegionState) (buf : List Nat) :
    Option RegionState :=
  if st.writers = 0 ∧ st.bufferedReaders = 0 ∧ st.buffer = Option.none ∧
      buf.length = st.capacity then
    match RegionHeader.write ⟨REGION_MAGIC⟩ buf with
    | Option.none => Option.none
    | some written => some { st with buffer := some written, len := dev.align }
  else Option.none

/-- Buffer detachment (`Region::detach_buffer`): takes the buffer; the outer
`Option` embeds the `unwrap` panic when no buffer is attached. -/
def Region.detach_buffer (st : RegionState) : Option (List Nat × RegionState) :=
  match st.buffer with
  | Option.none => Option.none
  | some b => some (b, { st with buffer := Option.none })

/-- Readiness of the cooperative `ErwLock::exclusive` loop: the guard is
returned exactly when every disallowed counter is zero. -/
def Region.exclusiveReady (st : RegionState)
    (canWrite canBufferedRead canPhysicalRead : Bool) : Bool :=
  (canWrite || st.writers == 0) && (canBufferedRead || st.bufferedReaders == 0)
    && (canPhysicalRead || st.physicalReaders == 0)

/-- Version bump (`Region::advance`): returns the old version and increments
the counter. -/
def Region.advance (st : RegionState) : Nat × RegionState :=
  (st.version, { st with version := st.version + 1 })

/-! ### Catalog -/

/-- A region view addressing an on-disk entry:
`(region_id, offset, len, version)` (spec §3, glossary). -/
structure RegionView where
  id : Nat
  offset : Nat
  len : Nat
  version : Nat
  deriving Repr, DecidableEq

/-- Modelled from the spec: `catalog.rs` is not under `src/`.  A catalog item
is `{ sequence, index }` where `index` is `Inflight { key, value }` or
`Region { view }` (spec §3). -/
inductive Index (K V : Type) where
  | inflight (key : K) (value : V)
  | region (view : RegionView)
  deriving Repr, DecidableEq

/-- Modelled from the spec: a catalog item (spec §3). -/
structure Item (K V : Type) where
  sequence : Nat
  index : Index K V
  deriving Repr, DecidableEq

/-- Modelled from the spec: the catalog is a sharded map `key → Item`
(spec §3, §4.3); sharding only spreads lock contention, so the model is a
single association list with unique keys. -/
def Catalog (K V : Type) := List (K × Item K V)

variable {K V : Type}

/-- Modelled from the spec: catalog lookup (`lookup(key) → Option<Item>`,
spec §4.3). -/
def Catalog.lookup [DecidableEq K] (c : Catalog K V) (k : K) : Option (Item K V) :=
  (List.find? (fun p => decide (p.1 = k)) c).map (·.2)

/-- Modelled from the spec: catalog insert with the sequence tie-break: "the
new item supersedes the old only if its `sequence` is greater; equal or
lesser sequences are silently dropped" (spec §4.3). -/
def Catalog.insert [DecidableEq K] (c : Catalog K V) (k : K) (item : Item K V) :
    Catalog K V :=
  match Catalog.lookup c k with
  | Option.none => (k, item) :: c
  | some old =>
    if old.sequence < item.sequence then
      List.map (fun p => if p.1 = k then (k, item) else p) c
    else c

/-- Modelled from the spec: catalog removal
(`remove(key) → Option<Item>`, spec §4.3). -/
def Catalog.remove [DecidableEq K] (c : Catalog K V) (k : K) :
    Option (Item K V) × Catalog K V :=
  (Catalog.lookup c k, List.filter (fun p => decide (p.1 ≠ k)) c)

/-- Whether an item's index points into the given region. -/
def Item.inRegion (it : Item K V) (rid : Nat) : Bool :=
  match it.index with
  | .region view => view.id == rid
  | _ => false

/-- Modelled from the spec: `take_region(region_id)` "enumerates and removes
all entries whose `index` points to the given region" (spec §4.3). -/
def Catalog.take_region (c : Catalog K V) (rid : Nat) :
    List (K × Item K V) × Catalog K V :=
  (List.filter (fun p => p.2.inRegion rid) c,
   List.filter (fun p => ! p.2.inRegion rid) c)

/-! ### Entry body (`read_entry` in `generic.rs`) -/

/-- External collaborators of the store: the key/value codecs (spec §6
"Key/Value codec"), the zstd/lz4 decompressors and the XXH64 checksum (the
`twox_hash`, `zstd` and `lz4` crates). -/
structure StoreEnv (K V : Type) where
  kRead : List Nat → Except StoreError K
  vRead : List Nat → Except StoreError V
  zstdDecode : List Nat → Except StoreError (List Nat)
  lz4Decode : List Nat → Except StoreError (List Nat)
  checksum : List Nat → Nat

/-- Entry-body decoding (`read_entry`): parse the header, read the
(possibly compressed) value, read the key, then verify the checksum over
`value_bytes ++ key_bytes`.  The outer `Option` embeds slicing panics. -/
def read_entry (env : StoreEnv K V) (buf : List Nat) :
    Option (Except StoreError (K × V)) :=
  match EntryHeader.read buf with
  | Option.none => Option.none
  | some (.error e) => some (.error e)
  | some (.ok header) =>
    let offset0 := EntryHeader.serialized_len
    match sliceRange buf offset0 (offset0 + header.value_len) with
    | Option.none => Option.none
    | some compressed =>
      let offset := offset0 + header.value_len
      let valueRes : Except StoreError V :=
        match header.compression with
        | .none => env.vRead compressed
        | .zstd => (env.zstdDecode compressed).bind env.vRead
        | .lz4 => (env.lz4Decode compressed).bind env.vRead
      match valueRes with
      | .error e => some (.error e)
      | .ok value =>
        match sliceRange buf offset (offset + header.key_len) with
        | Option.none => Option.none
        | some keyBytes =>
          match env.kRead keyBytes with
          | .error e => some (.error e)
          | .ok key =>
            match sliceRange buf offset0 (offset + header.key_len) with
            | Option.none => Option.none
            | some payload =>
              if env.checksum payload ≠ header.checksum then
                some (.error .checksumMismatch)
              else
                some (.ok (key, value))

/-! ### Store state and lookup (`generic.rs`) -/

/-- An entry handed to a flusher (`flusher::Entry`). -/
structure FlusherEntry (K V : Type) where
  sequence : Nat
  key : K
  value : V
  compression : Compression

/-- State of the generic store visible to the embedded operations: the
sequence counter, the catalog, the regions owned by the region manager
(indexed by region id), the per-flusher queues and the clean-region queue. -/
structure StoreState (K V : Type) where
  sequence : Nat
  catalog : Catalog K V
  regions : List RegionState
  flusherQueues : List (List (FlusherEntry K V))
  cleanRegions : List Nat

/-- Lookup (`GenericStore::lookup`): read the catalog; an `Inflight` item
returns its value; a `Region` item loads `view` from the region.  A load
miss (version mismatch) removes the catalog entry and returns `Ok(None)`; a
`read_entry` failure removes the catalog entry and returns the error.  The
transient read slice is dropped before returning, releasing its counter.
The outer `Option` embeds panics (out-of-range region id or slicing). -/
def GenericStore.lookup [DecidableEq K] (env : StoreEnv K V)
    (s : StoreState K V) (key : K) :
    Option (Except StoreError (Option V) × StoreState K V) :=
  match Catalog.lookup s.catalog key with
  | Option.none => some (.ok Option.none, s)
  | some item =>
    match item.index with
    | .inflight _ value => some (.ok (some value), s)
    | .region view =>
      match s.regions[view.id]? with
      | Option.none => Option.none
      | some region =>
        match Region.load region view.offset (view.offset + view.len) view.version with
        | Option.none => Option.none
        | some (Option.none, region') =>
          some (.ok Option.none,
            { s with catalog := (Catalog.remove s.catalog key).2,
                     regions := s.regions.set view.id region' })
        | some (some buf, region') =>
          let regionAfter := buf.release region'
          match read_entry env buf.bytes with
          | Option.none => Option.none
          | some (.ok (_k, value)) =>
            some (.ok (some value),
              { s with regions := s.regions.set view.id regionAfter })
          | some (.error e) =>
            some (.error e,
              { s with catalog := (Catalog.remove s.catalog key).2,
                       regions := s.regions.set view.id regionAfter })

/-! ### Writer (`generic.rs`) -/

/-- Modelled from the spec: `judge.rs` is not under `src/`.  Per-policy
judgements with a mask: "admission requires all judges true (except when the
Writer is forced or the judgement mask is cleared)"; "`force` sets a zero
mask, which judges to true" (spec §4.4, §4.5). -/
structure Judges where
  judges : List Bool
  mask : List Bool
  deriving Repr, DecidableEq

/-- Modelled from the spec: fresh judgements for `n` policies, all masked in. -/
def Judges.new (n : Nat) : Judges :=
  ⟨List.replicate n false, List.replicate n true⟩

/-- Modelled from the spec: record policy `i`'s judgement. -/
def Judges.set (j : Judges) (i : Nat) (b : Bool) : Judges :=
  { j with judges := j.judges.set i b }

/-- Modelled from the spec: read back policy `i`'s judgement. -/
def Judges.get (j : Judges) (i : Nat) : Bool :=
  j.judges.getD i false

/-- Modelled from the spec: replace the judgement mask (`set_judge_mask`;
`force` passes the empty mask). -/
def Judges.setMask (j : Judges) (m : List Bool) : Judges :=
  { j with mask := m }

/-- Modelled from the spec: the combined judgement — every masked-in policy
must judge true. -/
def Judges.judge (j : Judges) : Bool :=
  (List.zipWith (fun m v => !m || v) j.mask j.judges).all id

/-- State of a `GenericStoreWriter`: `key` is `Some` until `apply_writer`
takes it.  The judgement `duration` only feeds metrics and is omitted. -/
structure GenericStoreWriter (K : Type) where
  key : Option K
  weight : Nat
  sequence : Option Nat
  judges : Judges
  is_judged : Bool
  is_inserted : Bool
  is_skippable : Bool
  compression : Compression

/-- Constructor `GenericStoreWriter::new` for a store with `nAdmissions`
admission policies and default compression. -/
def GenericStoreWriter.new (nAdmissions : Nat) (compression : Compression)
    (key : K) (weight : Nat) : GenericStoreWriter K :=
  { key := some key, weight := weight, sequence := Option.none,
    judges := Judges.new nAdmissions, is_judged := false, is_inserted := false,
    is_skippable := false, compression := compression }

/-- Policy chain: each admission policy contributes its `judge(key, weight)`
function (policies are external collaborators; spec §4.4). -/
def Policies (K : Type) := List (K → Nat → Bool)

/-- Judgement collection (`GenericStore::judge_inner`): consult every
admission policy, record its verdict, and mark the writer judged.  The outer
`Option` embeds the `key.unwrap()` panic. -/
def GenericStore.judge_inner (policies : Policies K) (w : GenericStoreWriter K) :
    Option (GenericStoreWriter K) :=
  match w.key with
  | Option.none => Option.none
  | some k =>
    let js := (List.enum policies).foldl
      (fun js (ip : Nat × (K → Nat → Bool)) => js.set ip.1 (ip.2 k w.weight)) w.judges
    some { w with judges := js, is_judged := true }

/-- Memoised judgement (`GenericStoreWriter::judge`): run `judge_inner` only
if the writer has not been judged yet, then return the combined verdict. -/
def GenericStoreWriter.judge (policies : Policies K) (w : GenericStoreWriter K) :
    Option (Bool × GenericStoreWriter K) :=
  match (if w.is_judged then some w else GenericStore.judge_inner policies w) with
  | Option.none => Option.none
  | some w' => some (w'.judges.judge, w')

/-- Commit (`GenericStore::apply_writer`, reached from
`GenericStoreWriter::finish`): if the combined judgement rejects, return
`Ok(false)` without touching the store; otherwise mint or reuse the
sequence, deliver `on_insert` to every admission policy, insert an
`Inflight` item into the catalog, and hand the entry to flusher
`sequence % F`.  Returns the `Ok` value, the new store state and the list of
`on_insert` deliveries `(policy index, judgement)`.  The outer `Option`
embeds panics (`key.take().unwrap()`, `sequence % 0` with no flushers). -/
def GenericStore.apply_writer [DecidableEq K] (policies : Policies K)
    (s : StoreState K V) (w : GenericStoreWriter K) (value : V) :
    Option (Bool × StoreState K V × List (Nat × Bool)) :=
  match GenericStoreWriter.judge policies w with
  | Option.none => Option.none
  | some (false, _) => some (false, s, [])
  | some (true, w') =>
    let seqAndState : Nat × StoreState K V :=
      match w'.sequence with
      | some sq => (sq, s)
      | Option.none => (s.sequence, { s with sequence := s.sequence + 1 })
    let seq := seqAndState.1
    let s1 := seqAndState.2
    match w'.key with
    | Option.none => Option.none
    | some k =>
      let onIns := (List.range policies.length).map (fun i => (i, w'.judges.get i))
      let catalog' := Catalog.insert s1.catalog k ⟨seq, .inflight k value⟩
      if 0 < s1.flusherQueues.length then
        let fi := seq % s1.flusherQueues.length
        let queues' := s1.flusherQueues.set fi
          (s1.flusherQueues.getD fi [] ++ [⟨seq, k, value, w'.compression⟩])
        some (true, { s1 with catalog := catalog', flusherQueues := queues' }, onIns)
      else Option.none

/-- Latency sample emitted on the writer drop path. -/
inductive Sample where
  | filtered
  | dropped
  deriving Repr, DecidableEq

/-- Effects of dropping a writer: the `on_drop` deliveries
`(policy index, judgement)` and the latency sample, if any. -/
structure DropEffects where
  onDrops : List (Nat × Bool)
  sample : Option Sample
  deriving Repr, DecidableEq

/-- Drop path (`impl Drop for GenericStoreWriter`): a no-op if the writer was
inserted; otherwise `on_drop` goes to every admission policy only when the
writer had been judged, and a `filtered` sample is emitted when it had been
judged and the combined judgement was false, else a `dropped` sample. -/
def GenericStoreWriter.dropEffects (nPolicies : Nat) (w : GenericStoreWriter K) :
    DropEffects :=
  if w.is_inserted then ⟨[], Option.none⟩
  else
    let filtered := w.is_judged && !w.judges.judge
    ⟨if w.is_judged then (List.range nPolicies).map (fun i => (i, w.judges.get i))
      else [],
     some (if filtered then .filtered else .dropped)⟩

/-! ### Reclaimer runner (`reclaimer.rs`) -/

/-- One iteration of `Runner::run` for a received `ReclaimTask`: acquire the
region totally exclusively (`exclusive(false, false, false)` succeeds
exactly when all three counters are zero; until then the source loops, which
the model reports as `none`), take the region's catalog entries, skip the
reinsertion pass (a `TODO` in the source), and release the region id to the
clean-region queue.  The region's own state — its version in particular —
is not touched. -/
def Reclaimer.runTask [DecidableEq K] (s : StoreState K V) (region_id : Nat) :
    Option (StoreState K V) :=
  match s.regions[region_id]? with
  | Option.none => Option.none
  | some region =>
    if Region.exclusiveReady region false false false then
      let (_taken, catalog') := Catalog.take_region s.catalog region_id
      some { s with catalog := catalog',
                    cleanRegions := s.cleanRegions ++ [region_id] }
    else Option.none

/-! ### Recovery (`RegionEntryIter` in `generic.rs`) -/

/-- Modelled from the spec: `Region::load_range` (called by the recovery
iterator) is not in `src/region.rs`; it is `load` with the wildcard version
`0` ("version 0 is a wildcard meaning any version", spec §3). -/
def Region.load_range (st : RegionState) (start stop : Nat) :
    Option (Option ReadSlice × RegionState) :=
  Region.load st start stop 0

/-- Modelled from the spec: `Region::view` is not in `src/region.rs`; a view
captures `(region_id, offset, len)` and the region's current version
(spec §4.6, §4.9). -/
def Region.view (st : RegionState) (offset len : Nat) : RegionView :=
  ⟨st.id, offset, len, st.version⟩

/-- Modelled from the spec: `bits::align_up` of `foyer-common` is not under
`src/`; it rounds `v` up to the next multiple of `align` (spec §4.6 step 2,
§4.9). -/
def align_up (align v : Nat) : Nat :=
  (v + align - 1) / align * align

/-- Modelled from the spec: `bits::align_down` rounds `v` down to a multiple
of `align` (spec §4.9). -/
def align_down (align v : Nat) : Nat :=
  v / align * align

/-- Opening the recovery iterator (`RegionEntryIter::open`): read the first
`align` bytes; a load miss means no iterator (the region is treated clean).
The header block is then passed to `RegionHeader::read`; since the `read` in
`src/region.rs` is infallible and validates nothing, the
`let Ok(_) = ... else return Ok(None)` in the source always succeeds and the
iterator is produced regardless of the magic value.  Returns the initial
cursor (`align`) when the iterator opens.  The transient slice is dropped
before returning. -/
def RegionEntryIter.open (dev : DeviceParams) (st : RegionState) :
    Option (Option Nat × RegionState) :=
  match Region.load_range st 0 dev.align with
  | Option.none => Option.none
  | some (Option.none, st') => some (Option.none, st')
  | some (some slice, st') =>
    let stAfter := slice.release st'
    match RegionHeader.read slice.bytes with
    | Option.none => Option.none
    | some _header => some (some dev.align, stAfter)

/-- One step of the recovery iterator (`RegionEntryIter::next`): parse the
entry header at `cursor`, compute the entry span, decode the key (in block
or via a second aligned read), and yield the catalog item with a view of the
whole entry; any parse failure ends the iteration (`Ok(None)`).  Returns the
yielded entry (if any), the new cursor and the region state after the
transient slices are dropped. -/
def RegionEntryIter.next [DecidableEq K] (dev : DeviceParams) (env : StoreEnv K V)
    (st : RegionState) (cursor : Nat) :
    Option (Option (K × Item K V) × Nat × RegionState) :=
  if cursor + dev.align ≥ dev.regionSize then some (Option.none, cursor, st)
  else
    match Region.load_range st cursor (cursor + dev.align) with
    | Option.none => Option.none
    | some (Option.none, st1) => some (Option.none, cursor, st1)
    | some (some slice, st1) =>
      let st2 := slice.release st1
      match EntryHeader.read slice.bytes with
      | Option.none => Option.none
      | some (.error _) => some (Option.none, cursor, st2)
      | some (.ok header) =>
        let hdrLen := EntryHeader.serialized_len
        let entry_len := align_up dev.align (header.value_len + header.key_len + hdrLen)
        let abs_start := cursor + hdrLen + header.value_len
        let abs_stop := cursor + hdrLen + header.key_len + header.value_len
        if abs_start ≥ abs_stop ∨ abs_stop > dev.regionSize then
          some (Option.none, cursor, st2)
        else
          let align_start := align_down dev.align abs_start
          let align_stop := align_up dev.align abs_stop
          if align_start = cursor - dev.align ∧ align_stop = cursor then
            match sliceRange slice.bytes (hdrLen + header.value_len)
                (hdrLen + header.value_len + header.key_len) with
            | Option.none => Option.none
            | some kb =>
              match env.kRead kb with
              | .error _ => some (Option.none, cursor, st2)
              | .ok key =>
                some (some (key,
                  ⟨header.sequence, .region (Region.view st2 cursor entry_len)⟩),
                  cursor + entry_len, st2)
          else
            match Region.load_range st2 align_start align_stop with
            | Option.none => Option.none
            | some (Option.none, st3) => some (Option.none, cursor, st3)
            | some (some s2, st3) =>
              let st4 := s2.release st3
              match sliceRange s2.bytes (abs_start - align_start)
                  (abs_stop - align_start) with
              | Option.none => Option.none
              | some kb =>
                match env.kRead kb with
                | .error _ => some (Option.none, cursor, st4)
                | .ok key =>
                  some (some (key,
                    ⟨header.sequence, .region (Region.view st4 cursor entry_len)⟩),
                    cursor + entry_len, st4)

/-- Iterating `RegionEntryIter::next` inside `recover_region`, inserting
every yielded item into the catalog and tracking the maximal sequence; the
fuel bounds the loop (each yielded entry advances the cursor by at least one
aligned block, so `regionSize + 1` steps always suffice). -/
def RegionEntryIter.recoverLoop [DecidableEq K] (dev : DeviceParams)
    (env : StoreEnv K V) :
    Nat → RegionState → Nat → Catalog K V → Nat →
    Option (Nat × Catalog K V × RegionState)
  | 0, _, _, _, _ => Option.none
  | fuel + 1, st, cursor, catalog, seq =>
    match RegionEntryIter.next dev env st cursor with
    | Option.none => Option.none
    | some (Option.none, _, st') => some (seq, catalog, st')
    | some (some (key, item), cursor', st') =>
      RegionEntryIter.recoverLoop dev env fuel st' cursor'
        (Catalog.insert catalog key item) (max seq item.sequence)

/-- Outcome of recovering one region (`GenericStore::recover_region`):
`result = none` means the region was released to the clean-region queue;
`result = some maxSeq` means the region was pushed to the eviction policy
and reported its maximal sequence. -/
structure RecoverOutcome (K V : Type) where
  result : Option Nat
  catalog : Catalog K V
  region : RegionState

/-- Recovery of one region (`GenericStore::recover_region`): open the
iterator; if it does not open, release the region to `clean_regions`;
otherwise drain it into the catalog and report the maximal sequence. -/
def GenericStore.recover_region [DecidableEq K] (dev : DeviceParams)
    (env : StoreEnv K V) (st : RegionState) (catalog : Catalog K V) :
    Option (RecoverOutcome K V) :=
  match RegionEntryIter.open dev st with
  | Option.none => Option.none
  | some (Option.none, st') => some ⟨Option.none, catalog, st'⟩
  | some (some cursor, st') =>
    match RegionEntryIter.recoverLoop dev env (dev.regionSize + 1) st' cursor
        catalog 0 with
    | Option.none => Option.none
    | some (seq, catalog', st2) => some ⟨some seq, catalog', st2⟩

/-! ### Slice lifecycle traces (`region.rs` counters) -/

/-- Events on one region that create or drop slices: `alloc` hands out a
`WriteSlice` (`Region::allocate`), `load` may hand out a buffered or owned
`ReadSlice` (`Region::load`), and the three drop events run the matching
cleanup closure (`impl Drop for WriteSlice` / `impl Drop for ReadSlice`).
Rust ownership guarantees a slice is dropped at most once and only after it
was handed out; the step function enforces exactly that via the outstanding
counts. -/
inductive SliceOp where
  | alloc (size : Nat)
  | dropWrite
  | load (start stop version : Nat)
  | dropBuffered
  | dropOwned

/-- Outstanding (not yet dropped) slices of a region, by kind. -/
structure Outstanding where
  write : Nat
  buffered : Nat
  owned : Nat
  deriving Repr, DecidableEq

/-- One step of the slice lifecycle: each event is interpreted by the
corresponding source operation. -/
def sliceStep (dev : DeviceParams) (s : RegionState × Outstanding) (op : SliceOp) :
    Option (RegionState × Outstanding) :=
  match op with
  | .alloc size =>
    match Region.allocate dev s.1 size with
    | Option.none => Option.none
    | some (_, st') => some (st', { s.2 with write := s.2.write + 1 })
  | .dropWrite =>
    match s.2.write with
    | 0 => Option.none
    | ow + 1 => some (Region.releaseWrite s.1, { s.2 with write := ow })
  | .load start stop version =>
    match Region.load s.1 start stop version with
    | Option.none => Option.none
    | some (Option.none, st') => some (st', s.2)
    | some (some (.slice _), st') =>
      some (st', { s.2 with buffered := s.2.buffered + 1 })
    | some (some (.owned _), st') =>
      some (st', { s.2 with owned := s.2.owned + 1 })
  | .dropBuffered =>
    match s.2.buffered with
    | 0 => Option.none
    | ob + 1 => some (Region.releaseBuffered s.1, { s.2 with buffered := ob })
  | .dropOwned =>
    match s.2.owned with
    | 0 => Option.none
    | op' + 1 => some (Region.releaseOwned s.1, { s.2 with owned := op' })

/-- Run a list of slice lifecycle events. -/
def sliceRun (dev : DeviceParams) (s : RegionState × Outstanding) :
    List SliceOp → Option (RegionState × Outstanding)
  | [] => some s
  | op :: ops =>
    match sliceStep dev s op with
    | Option.none => Option.none
    | some s' => sliceRun dev s' ops

/-! ### Concrete instances used by witnesses -/

/-- Small but well-formed device geometry (`region_size` a multiple of
`align`, `align ≥` the 28-byte entry header). -/
def devW : DeviceParams := ⟨32, 128, 32⟩

def bufW : List Nat := List.replicate 128 0

/-- A region with an attached buffer, one header block written
(`len = align`). -/
def stC5 : RegionState :=
  { id := 7, version := 2, buffer := some bufW, len := 32, capacity := 128,
    writers := 0, bufferedReaders := 0, physicalReaders := 0, disk := bufW }

/-! ### Theorems -/

theorem allocate_shape (dev : DeviceParams) (st : RegionState) (size : Nat)
    (b : List Nat) (hbuf : st.buffer = some b) :
    Region.allocate dev st size =
      if st.len + size + dev.align > st.capacity then
        some (AllocateResult.full
          { sliceStart := dev.regionSize - dev.align, sliceStop := dev.regionSize,
            region_id := st.id, version := st.version, offset := st.len,
            cleanup := true } (dev.regionSize - st.len),
          { st with writers := st.writers + 1, len := dev.regionSize })
      else
        some (AllocateResult.ok
          { sliceStart := st.len, sliceStop := st.len + size,
            region_id := st.id, version := st.version, offset := st.len,
            cleanup := true },
          { st with writers := st.writers + 1, len := st.len + size }) := by
  unfold Region.allocate
  rw [hbuf]

/-- C5: on a region with an attached buffer, `allocate(size)` returns `Full`
with the tail `align` bytes and `region_size - len` leftover bytes exactly
when `len + size + align > capacity`; otherwise it returns `Ok` with a
`WriteSlice` covering `[len, len + size)` and advances `len` by `size`; in
both cases `writers` is incremented, and releasing the returned slice
decrements it again. -/
theorem allocate_spec (dev : DeviceParams) (st : RegionState) (size : Nat)
    (b : List Nat) (hbuf : st.buffer = some b) :
    (st.len + size + dev.align > st.capacity →
      Region.allocate dev st size = some (AllocateResult.full
        { sliceStart := dev.regionSize - dev.align, sliceStop := dev.regionSize,
          region_id := st.id, version := st.version, offset := st.len,
          cleanup := true } (dev.regionSize - st.len),
        { st with writers := st.writers + 1, len := dev.regionSize })) ∧
    (¬ st.len + size + dev.align > st.capacity →
      Region.allocate dev st size = some (AllocateResult.ok
        { sliceStart := st.len, sliceStop := st.len + size,
          region_id := st.id, version := st.version, offset := st.len,
          cleanup := true },
        { st with writers := st.writers + 1, len := st.len + size })) ∧
    (∀ r st', Region.allocate dev st size = some (r, st') →
      st'.writers = st.writers + 1 ∧
      (Region.releaseWrite st').writers = st.writers) := by
  refine ⟨fun hfull => ?_, fun hok => ?_, fun r st' halloc => ?_⟩
  · rw [allocate_shape dev st size b hbuf, if_pos hfull]
  · rw [allocate_shape dev st size b hbuf, if_neg hok]
  · rw [allocate_shape dev st size b hbuf] at halloc
    split at halloc <;>
      · obtain ⟨-, rfl⟩ := Prod.mk.injEq .. ▸ Option.some.injEq .. ▸ halloc
        exact ⟨rfl, rfl⟩

/-- Witness for `allocate_spec` at a concrete region and size. -/
theorem allocate_spec_witness :
    ¬ stC5.len + 64 + devW.align > stC5.capacity ∧
    Region.allocate devW stC5 64 = some (AllocateResult.ok
      { sliceStart := stC5.len, sliceStop := stC5.len + 64,
        region_id := stC5.id, version := stC5.version, offset := stC5.len,
        cleanup := true },
      { stC5 with writers := stC5.writers + 1, len := stC5.len + 64 }) :=
  ⟨by decide, (allocate_spec devW stC5 64 bufW rfl).2.1 (by decide)⟩

theorem allocate_counters {dev : DeviceParams} {st : RegionState} {size : Nat}
    {r : AllocateResult} {stn : RegionState}
    (h : Region.allocate dev st size = some (r, stn)) :
    stn.writers = st.writers + 1 ∧ stn.bufferedReaders = st.bufferedReaders ∧
      stn.physicalReaders = st.physicalReaders := by
  rcases hb : st.buffer with _ | bb
  · unfold Region.allocate at h
    simp only [hb] at h
    exact Option.noConfusion h
  · rw [allocate_shape dev st size bb hb] at h
    split at h <;>
      · simp only [Option.some.injEq, Prod.mk.injEq] at h
        obtain ⟨-, h2⟩ := h
        rw [← h2]
        exact ⟨rfl, rfl, rfl⟩

theorem load_counters {st : RegionState} {start stop version : Nat}
    {sl : Option ReadSlice} {stn : RegionState}
    (h : Region.load st start stop version = some (sl, stn)) :
    (sl = Option.none ∧ stn.writers = st.writers ∧
      stn.bufferedReaders = st.bufferedReaders ∧
      stn.physicalReaders = st.physicalReaders) ∨
    ((∃ bs, sl = some (.slice bs)) ∧ stn.writers = st.writers ∧
      stn.bufferedReaders = st.bufferedReaders + 1 ∧
      stn.physicalReaders = st.physicalReaders) ∨
    ((∃ bs, sl = some (.owned bs)) ∧ stn.writers = st.writers ∧
      stn.bufferedReaders = st.bufferedReaders ∧
      stn.physicalReaders = st.physicalReaders + 1) := by
  unfold Region.load at h
  split at h
  · simp only [Option.some.injEq, Prod.mk.injEq] at h
    obtain ⟨h1, h2⟩ := h
    subst h2
    exact Or.inl ⟨h1.symm, rfl, rfl, rfl⟩
  · rcases hb : st.buffer with _ | bb <;> simp only [hb] at h
    · simp only [Option.some.injEq, Prod.mk.injEq] at h
      obtain ⟨h1, h2⟩ := h
      rw [← h2]
      exact Or.inr (Or.inr ⟨⟨_, h1.symm⟩, rfl, rfl, rfl⟩)
    · rcases hsr : sliceRange bb start stop with _ | bytes <;>
        simp only [hsr] at h
      · exact Option.noConfusion h
      · simp only [Option.some.injEq, Prod.mk.injEq] at h
        obtain ⟨h1, h2⟩ := h
        rw [← h2]
        exact Or.inr (Or.inl ⟨⟨_, h1.symm⟩, rfl, rfl, rfl⟩)

/-- C9: `Region::allocate` never returns the `AllocateResult::None` variant:
whenever it returns at all, the result is `Ok` or `Full`. -/
theorem allocate_never_returns_none (dev : DeviceParams) (st : RegionState)
    (size : Nat) (r : AllocateResult) (st' : RegionState)
    (h : Region.allocate dev st size = some (r, st')) :
    r ≠ AllocateResult.none := by
  rcases hb : st.buffer with _ | bb
  · unfold Region.allocate at h
    simp only [hb] at h
    exact Option.noConfusion h
  · rw [allocate_shape dev st size bb hb] at h
    split at h <;>
      · simp only [Option.some.injEq, Prod.mk.injEq] at h
        obtain ⟨h1, -⟩ := h
        rw [← h1]
        simp

/-- Witness for `allocate_never_returns_none` at a concrete allocation that
overflows the region (the `Full` path). -/
theorem allocate_never_returns_none_witness :
    AllocateResult.full
      { sliceStart := 96, sliceStop := 128, region_id := 7, version := 2,
        offset := 32, cleanup := true } 96 ≠ AllocateResult.none :=
  allocate_never_returns_none devW stC5 96 _
    { stC5 with writers := 1, len := 128 } (by decide)

theorem sliceStep_inv {dev : DeviceParams} {st : RegionState} {out : Outstanding}
    {op : SliceOp} {st1 : RegionState} {out1 : Outstanding}
    (hstep : sliceStep dev (st, out) op = some (st1, out1))
    (h1 : out.write ≤ st.writers) (h2 : out.buffered ≤ st.bufferedReaders)
    (h3 : out.owned ≤ st.physicalReaders) :
    (out1.write ≤ st1.writers ∧ out1.buffered ≤ st1.bufferedReaders ∧
      out1.owned ≤ st1.physicalReaders) ∧
    st1.writers - out1.write = st.writers - out.write ∧
    st1.bufferedReaders - out1.buffered = st.bufferedReaders - out.buffered ∧
    st1.physicalReaders - out1.owned = st.physicalReaders - out.owned := by
  cases op with
  | alloc size =>
    simp only [sliceStep] at hstep
    rcases halloc : Region.allocate dev st size with _ | ⟨r, stn⟩ <;>
      simp only [halloc] at hstep
    · exact Option.noConfusion hstep
    · obtain ⟨hw, hb, hp⟩ := allocate_counters halloc
      simp only [Option.some.injEq, Prod.mk.injEq] at hstep
      obtain ⟨rfl, rfl⟩ := hstep
      refine ⟨⟨?_, ?_, ?_⟩, ?_, ?_, ?_⟩ <;> simp only [hw, hb, hp] <;> omega
  | dropWrite =>
    simp only [sliceStep] at hstep
    rcases how : out.write with _ | ow <;> simp only [how] at hstep
    · exact Option.noConfusion hstep
    · simp only [Option.some.injEq, Prod.mk.injEq] at hstep
      obtain ⟨rfl, rfl⟩ := hstep
      rw [how] at h1
      refine ⟨⟨?_, ?_, ?_⟩, ?_, ?_, ?_⟩ <;> simp [Region.releaseWrite] <;> omega
  | load start stop version =>
    simp only [sliceStep] at hstep
    rcases hload : Region.load st start stop version with _ | ⟨sl, stn⟩ <;>
      simp only [hload] at hstep
    · exact Option.noConfusion hstep
    · rcases load_counters hload with ⟨hsl, hw, hb, hp⟩ |
          ⟨⟨bs, hsl⟩, hw, hb, hp⟩ | ⟨⟨bs, hsl⟩, hw, hb, hp⟩ <;> subst hsl <;>
        · simp only [Option.some.injEq, Prod.mk.injEq] at hstep
          obtain ⟨rfl, rfl⟩ := hstep
          refine ⟨⟨?_, ?_, ?_⟩, ?_, ?_, ?_⟩ <;> simp only [hw, hb, hp] <;> omega
  | dropBuffered =>
    simp only [sliceStep] at hstep
    rcases hob : out.buffered with _ | ob <;> simp only [hob] at hstep
    · exact Option.noConfusion hstep
    · simp only [Option.some.injEq, Prod.mk.injEq] at hstep
      obtain ⟨rfl, rfl⟩ := hstep
      rw [hob] at h2
      refine ⟨⟨?_, ?_, ?_⟩, ?_, ?_, ?_⟩ <;> simp [Region.releaseBuffered] <;> omega
  | dropOwned =>
    simp only [sliceStep] at hstep
    rcases hop : out.owned with _ | op' <;> simp only [hop] at hstep
    · exact Option.noConfusion hstep
    · simp only [Option.some.injEq, Prod.mk.injEq] at hstep
      obtain ⟨rfl, rfl⟩ := hstep
      rw [hop] at h3
      refine ⟨⟨?_, ?_, ?_⟩, ?_, ?_, ?_⟩ <;> simp [Region.releaseOwned] <;> omega

theorem sliceRun_inv (dev : DeviceParams) (ops : List SliceOp) :
    ∀ (st : RegionState) (out : Outstanding) (st' : RegionState)
      (out' : Outstanding),
    out.write ≤ st.writers → out.buffered ≤ st.bufferedReaders →
    out.owned ≤ st.physicalReaders →
    sliceRun dev (st, out) ops = some (st', out') →
    (out'.write ≤ st'.writers ∧ out'.buffered ≤ st'.bufferedReaders ∧
      out'.owned ≤ st'.physicalReaders) ∧
    st'.writers - out'.write = st.writers - out.write ∧
    st'.bufferedReaders - out'.buffered = st.bufferedReaders - out.buffered ∧
    st'.physicalReaders - out'.owned = st.physicalReaders - out.owned := by
  induction ops with
  | nil =>
    intro st out st' out' h1 h2 h3 hrun
    obtain ⟨rfl, rfl⟩ : st = st' ∧ out = out' := by
      simpa [sliceRun] using hrun
    exact ⟨⟨h1, h2, h3⟩, rfl, rfl, rfl⟩
  | cons op ops ih =>
    intro st out st' out' h1 h2 h3 hrun
    rw [sliceRun] at hrun
    rcases hstep : sliceStep dev (st, out) op with _ | ⟨st1, out1⟩ <;>
      rw [hstep] at hrun
    · exact absurd hrun (by simp)
    · obtain ⟨⟨k1, k2, k3⟩, e1, e2, e3⟩ := sliceStep_inv hstep h1 h2 h3
      obtain ⟨⟨g1, g2, g3⟩, f1, f2, f3⟩ := ih st1 out1 st' out' k1 k2 k3 hrun
      exact ⟨⟨g1, g2, g3⟩, by omega, by omega, by omega⟩

/-- C10: starting with no outstanding slices, any sequence of allocations,
loads and slice drops leaves each counter equal to its starting value plus
the number of still-outstanding slices of that kind; in particular, once
every handed-out slice has been dropped the `writers`, `buffered_readers`
and `physical_readers` counters are restored exactly, each drop decrements
the counter its slice's creation incremented by one, and no decrement ever
underflows. -/
theorem slice_counters_spec (dev : DeviceParams) (ops : List SliceOp)
    (st st' : RegionState) (out' : Outstanding)
    (h : sliceRun dev (st, ⟨0, 0, 0⟩) ops = some (st', out')) :
    st'.writers = st.writers + out'.write ∧
    st'.bufferedReaders = st.bufferedReaders + out'.buffered ∧
    st'.physicalReaders = st.physicalReaders + out'.owned := by
  obtain ⟨⟨g1, g2, g3⟩, f1, f2, f3⟩ :=
    sliceRun_inv dev ops st ⟨0, 0, 0⟩ st' out'
      (Nat.zero_le _) (Nat.zero_le _) (Nat.zero_le _) h
  simp at f1 f2 f3
  refine ⟨?_, ?_, ?_⟩ <;> omega

/-- Witness for `slice_counters_spec`: allocate a slice, take a buffered
read, then drop both; the counters return to zero. -/
theorem slice_counters_spec_witness :
    sliceRun devW (stC5, ⟨0, 0, 0⟩)
      [.alloc 10, .load 0 32 0, .dropBuffered, .dropWrite] =
      some ({ stC5 with len := 42 }, ⟨0, 0, 0⟩) ∧
    ({ stC5 with len := 42 } : RegionState).writers = stC5.writers + 0 :=
  ⟨by decide,
   (slice_counters_spec devW [.alloc 10, .load 0 32 0, .dropBuffered, .dropWrite]
      stC5 { stC5 with len := 42 } ⟨0, 0, 0⟩ (by decide)).1⟩

theorem takeBytes_be32 (n : Nat) (r : List Nat) :
    takeBytes 4 (be32 n ++ r) = some (be32 n, r) :=
  takeBytes_append _ _ _ rfl

theorem takeBytes_be64 (n : Nat) (r : List Nat) :
    takeBytes 8 (be64 n ++ r) = some (be64 n, r) :=
  takeBytes_append _ _ _ rfl

theorem takeBytes_be32_nil (n : Nat) :
    takeBytes 4 (be32 n) = some (be32 n, []) := by
  simp [takeBytes, be32]

theorem read_of_write_parts (k v s c m : Nat) :
    EntryHeader.read (be32 k ++ be32 v ++ be64 s ++ be64 c ++ be32 m) =
      if beVal (be32 m) &&& ENTRY_MAGIC_MASK ≠ ENTRY_MAGIC then
        some (.error .magicMismatch)
      else
        some ((Compression.tryFrom (beVal (be32 m) % 256)).map fun cc =>
          { key_len := beVal (be32 k), value_len := beVal (be32 v),
            sequence := beVal (be64 s), checksum := beVal (be64 c),
            compression := cc }) := by
  simp only [List.append_assoc, EntryHeader.read, takeBytes_be32, takeBytes_be64,
    takeBytes_be32_nil]

theorem magic_or_tag (comp : Compression) :
    beVal (be32 (ENTRY_MAGIC ||| comp.toU8)) = ENTRY_MAGIC + comp.toU8 := by
  cases comp <;> decide

theorem magic_mask_tag (comp : Compression) :
    (ENTRY_MAGIC + comp.toU8) &&& ENTRY_MAGIC_MASK = ENTRY_MAGIC := by
  cases comp <;> decide

theorem tryFrom_magic_tag (comp : Compression) :
    Compression.tryFrom ((ENTRY_MAGIC + comp.toU8) % 256) = .ok comp := by
  cases comp <;> rfl

/-- C7: for every valid entry header (32-bit lengths, 64-bit sequence and
checksum, compression tag in `{0,1,2}`), `EntryHeader::read` inverts
`EntryHeader::write`; the serialized form is 28 bytes, and its final
big-endian `u32` satisfies `v & 0xFFFFFF00 = 0x97032700` with the low byte
equal to the compression tag. -/
theorem EntryHeader_roundtrip (h : EntryHeader)
    (hk : h.key_len < 2 ^ 32) (hv : h.value_len < 2 ^ 32)
    (hs : h.sequence < 2 ^ 64) (hc : h.checksum < 2 ^ 64) :
    EntryHeader.read (EntryHeader.write h) = some (.ok h) ∧
    (EntryHeader.write h).length = EntryHeader.serialized_len ∧
    beVal ((EntryHeader.write h).drop 24) &&& ENTRY_MAGIC_MASK = ENTRY_MAGIC ∧
    beVal ((EntryHeader.write h).drop 24) % 256 = h.compression.toU8 := by
  obtain ⟨k, v, s, c, comp⟩ := h
  simp only [EntryHeader.write] at *
  have e1 : k % 2 ^ 32 = k := Nat.mod_eq_of_lt hk
  have e2 : v % 2 ^ 32 = v := Nat.mod_eq_of_lt hv
  have e3 : s % 2 ^ 64 = s := Nat.mod_eq_of_lt hs
  have e4 : c % 2 ^ 64 = c := Nat.mod_eq_of_lt hc
  rw [e1, e2, e3, e4]
  have hdrop : (be32 k ++ be32 v ++ be64 s ++ be64 c ++
      be32 (ENTRY_MAGIC ||| comp.toU8)).drop 24 =
      be32 (ENTRY_MAGIC ||| comp.toU8) := by
    simp only [be32, be64]
    rfl
  refine ⟨?_, ?_, ?_, ?_⟩
  · rw [read_of_write_parts, magic_or_tag,
      if_neg (by rw [magic_mask_tag comp]; simp), tryFrom_magic_tag]
    simp only [Except.map, Option.some.injEq, Except.ok.injEq]
    rw [beVal_be32 k hk, beVal_be32 v hv, beVal_be64 s hs, beVal_be64 c hc]
  · simp [be32, be64, EntryHeader.serialized_len]
  · rw [hdrop, magic_or_tag, magic_mask_tag]
  · rw [hdrop, magic_or_tag]
    cases comp <;> decide

/-- Witness for `EntryHeader_roundtrip` at a concrete header. -/
theorem EntryHeader_roundtrip_witness :
    EntryHeader.read (EntryHeader.write ⟨5, 9, 77, 123456, .lz4⟩) =
      some (.ok ⟨5, 9, 77, 123456, .lz4⟩) :=
  (EntryHeader_roundtrip ⟨5, 9, 77, 123456, .lz4⟩ (by decide) (by decide)
    (by decide) (by decide)).1

/-! ### The exact-fill boundary (C8) -/

def AllocateResult.isOk : AllocateResult → Bool
  | .ok _ => true
  | _ => false

/-- State of a freshly attached region: `attach_buffer` on a new region with
a zeroed buffer of exactly `capacity` bytes. -/
def stC8 : RegionState :=
  { id := 0, version := 0, buffer := some (be64 REGION_MAGIC ++ bufW.drop 8),
    len := 32, capacity := 128, writers := 0, bufferedReaders := 0,
    physicalReaders := 0, disk := bufW }

/-- Counterexample to C8 as stated: on a freshly attached region buffer
(`len = align`), an allocation of exactly `region_size - align` bytes does
not succeed — it returns `Full`, because the tail `align` bytes are reserved
for the region footer on top of the `align`-byte header block. -/
theorem exact_fill_allocate_not_ok :
    Region.attach_buffer devW (Region.new devW 0 bufW) bufW = some stC8 ∧
    stC8.len = devW.align ∧
    (Region.allocate devW stC8 (devW.regionSize - devW.align)).map
      (fun p => p.1.isOk) = some false := by decide

/-- C8 (amended): on a freshly attached region buffer (`len = align`), the
largest entry that fits is `region_size - 2 * align` bytes: allocating it
succeeds with a slice covering `[align, region_size - align)` and advances
`len` to `region_size - align`, exactly filling the region up to the
reserved footer block, while allocating `region_size - align` returns
`Full`. -/
theorem attach_buffer_shape {dev : DeviceParams} {st : RegionState}
    {buf : List Nat} {stA : RegionState}
    (h : Region.attach_buffer dev st buf = some stA) :
    st.writers = 0 ∧ st.bufferedReaders = 0 ∧ st.buffer = Option.none ∧
    buf.length = st.capacity ∧ 8 ≤ buf.length ∧
    stA = { st with
      buffer := some (be64 (REGION_MAGIC % 2 ^ 64) ++ buf.drop 8),
      len := dev.align } := by
  unfold Region.attach_buffer at h
  split at h
  · rename_i hguard
    split at h
    · exact Option.noConfusion h
    · rename_i written hwr
      unfold RegionHeader.write at hwr
      split at hwr
      · rename_i h8
        simp only [Option.some.injEq] at hwr h
        exact ⟨hguard.1, hguard.2.1, hguard.2.2.1, hguard.2.2.2, h8,
          by rw [← h, ← hwr]⟩
      · exact Option.noConfusion hwr
  · exact Option.noConfusion h

theorem fresh_region_max_entry_spec (dev : DeviceParams) (st0 st : RegionState)
    (buf : List Nat) (hattach : Region.attach_buffer dev st0 buf = some st)
    (halign : 0 < dev.align) (hcap : st0.capacity = dev.regionSize)
    (hsize : 2 * dev.align ≤ dev.regionSize) :
    Region.allocate dev st (dev.regionSize - 2 * dev.align) =
      some (AllocateResult.ok
        { sliceStart := dev.align, sliceStop := dev.regionSize - dev.align,
          region_id := st.id, version := st.version, offset := dev.align,
          cleanup := true },
        { st with writers := st.writers + 1,
                  len := dev.regionSize - dev.align }) ∧
    (Region.allocate dev st (dev.regionSize - dev.align)).map
      (fun p => p.1.isOk) = some false := by
  obtain ⟨hw0, hb0, hbn, hlen, h8, rfl⟩ := attach_buffer_shape hattach
  have hbuf : ({ st0 with
      buffer := some (be64 (REGION_MAGIC % 2 ^ 64) ++ buf.drop 8),
      len := dev.align } : RegionState).buffer =
      some (be64 (REGION_MAGIC % 2 ^ 64) ++ buf.drop 8) := rfl
  constructor
  · rw [allocate_shape dev _ _ _ hbuf]
    rw [if_neg (by simp only; omega)]
    have h1 : dev.align + (dev.regionSize - 2 * dev.align) =
        dev.regionSize - dev.align := by omega
    simp only [h1]
  · rw [allocate_shape dev _ _ _ hbuf]
    rw [if_pos (by simp only; omega)]
    simp [AllocateResult.isOk]

/-- Witness for `fresh_region_max_entry_spec` at the concrete fresh region. -/
theorem fresh_region_max_entry_spec_witness :
    Region.allocate devW stC8 (devW.regionSize - 2 * devW.align) =
      some (AllocateResult.ok
        { sliceStart := devW.align, sliceStop := devW.regionSize - devW.align,
          region_id := stC8.id, version := stC8.version, offset := devW.align,
          cleanup := true },
        { stC8 with writers := stC8.writers + 1,
                    len := devW.regionSize - devW.align }) ∧
    (Region.allocate devW stC8 (devW.regionSize - devW.align)).map
      (fun p => p.1.isOk) = some false :=
  fresh_region_max_entry_spec devW (Region.new devW 0 bufW) stC8 bufW
    (by decide) (by decide) (by decide) (by decide)

/-! ### Lookup (C2) -/

theorem Catalog.lookup_remove [DecidableEq K] (c : Catalog K V) (k : K) :
    Catalog.lookup (Catalog.remove c k).2 k = Option.none := by
  have hfind : List.find? (fun p => decide (p.1 = k))
      (List.filter (fun p => decide (p.1 ≠ k)) c) = Option.none := by
    rw [List.find?_eq_none]
    intro p hp
    have h2 := (List.mem_filter.mp hp).2
    simp only [decide_not, Bool.not_eq_true', decide_eq_false_iff_not] at h2
    simp [h2]
  simp [Catalog.lookup, Catalog.remove, hfind]

/-- C2: when a key's catalog item is `Region{view}`: a non-zero
`view.version` differing from the region's current version makes `lookup`
return `Ok(None)` and remove the catalog entry; a `read_entry` failure
(entry magic, checksum or codec) makes `lookup` return that error and also
remove the catalog entry; in both cases the removed entry makes any
subsequent lookup of the key miss. -/
theorem lookup_region_spec {K V : Type} [DecidableEq K] (env : StoreEnv K V)
    (s : StoreState K V) (key : K) (item : Item K V) (view : RegionView)
    (region : RegionState)
    (hitem : Catalog.lookup s.catalog key = some item)
    (hidx : item.index = .region view)
    (hregion : s.regions[view.id]? = some region) :
    (view.version ≠ 0 → view.version ≠ region.version →
      GenericStore.lookup env s key = some (.ok Option.none,
        { s with catalog := (Catalog.remove s.catalog key).2,
                 regions := s.regions.set view.id region })) ∧
    (∀ slice region' e,
      Region.load region view.offset (view.offset + view.len) view.version =
        some (some slice, region') →
      read_entry env slice.bytes = some (.error e) →
      GenericStore.lookup env s key = some (.error e,
        { s with catalog := (Catalog.remove s.catalog key).2,
                 regions := s.regions.set view.id (slice.release region') })) ∧
    (∀ s' : StoreState K V, s'.catalog = (Catalog.remove s.catalog key).2 →
      GenericStore.lookup env s' key = some (.ok Option.none, s')) := by
  refine ⟨fun h1 h2 => ?_, fun slice region' e hload hread => ?_,
    fun s' hcat => ?_⟩
  · have hl : Region.load region view.offset (view.offset + view.len)
        view.version = some (Option.none, region) := by
      unfold Region.load
      rw [if_pos ⟨h1, h2⟩]
    simp only [GenericStore.lookup, hitem, hidx, hregion, hl]
  · simp only [GenericStore.lookup, hitem, hidx, hregion, hload, hread]
  · simp only [GenericStore.lookup, hcat, Catalog.lookup_remove]

/-- Environment with concrete collaborator functions, for witnesses. -/
def envN : StoreEnv Nat Nat :=
  { kRead := fun bs => .ok (beVal bs), vRead := fun bs => .ok (beVal bs),
    zstdDecode := fun bs => .ok bs, lz4Decode := fun bs => .ok bs,
    checksum := fun bs => bs.foldl (· + ·) 0 }

/-- A sealed (buffer-detached) region at version 5 with zeroed device
content. -/
def regW : RegionState :=
  { id := 0, version := 5, buffer := Option.none, len := 128, capacity := 128,
    writers := 0, bufferedReaders := 0, physicalReaders := 0, disk := bufW }

/-- Store whose only catalog entry carries a stale view version (3 ≠ 5). -/
def sC2a : StoreState Nat Nat :=
  { sequence := 0, catalog := [(9, ⟨1, .region ⟨0, 32, 32, 3⟩⟩)],
    regions := [regW], flusherQueues := [[]], cleanRegions := [] }

/-- Store whose only catalog entry points (with wildcard version 0) at
zeroed bytes, which fail the entry-magic check. -/
def sC2b : StoreState Nat Nat :=
  { sequence := 0, catalog := [(9, ⟨1, .region ⟨0, 32, 32, 0⟩⟩)],
    regions := [regW], flusherQueues := [[]], cleanRegions := [] }

/-- Witness for `lookup_region_spec`: the stale-version lookup misses and
purges the entry; the bad-magic lookup returns the error and purges the
entry. -/
theorem lookup_region_spec_witness :
    GenericStore.lookup envN sC2a 9 = some (.ok Option.none,
      { sC2a with catalog := (Catalog.remove sC2a.catalog 9).2,
                  regions := sC2a.regions.set 0 regW }) ∧
    GenericStore.lookup envN sC2b 9 = some (.error .magicMismatch,
      { sC2b with catalog := (Catalog.remove sC2b.catalog 9).2,
                  regions := sC2b.regions.set 0
                    ((ReadSlice.owned (List.replicate 32 0)).release
                      { regW with physicalReaders := 1 }) }) :=
  ⟨(lookup_region_spec envN sC2a 9 ⟨1, .region ⟨0, 32, 32, 3⟩⟩ ⟨0, 32, 32, 3⟩
      regW (by decide) (by decide) (by decide)).1 (by decide) (by decide),
   (lookup_region_spec envN sC2b 9 ⟨1, .region ⟨0, 32, 32, 0⟩⟩ ⟨0, 32, 32, 0⟩
      regW (by decide) (by decide) (by decide)).2.1
      (ReadSlice.owned (List.replicate 32 0))
      { regW with physicalReaders := 1 } .magicMismatch (by decide) (by rfl)⟩

/-! ### Reclaim and recovery evidence (C1, C6) -/

/-- A sealed region at version 3, fully drained (all counters zero). -/
def stC1region : RegionState :=
  { id := 0, version := 3, buffer := Option.none, len := 128, capacity := 128,
    writers := 0, bufferedReaders := 0, physicalReaders := 0, disk := bufW }

/-- Store with one catalog entry pointing into the victim region. -/
def sC1 : StoreState Nat Nat :=
  { sequence := 10, catalog := [(5, ⟨1, .region ⟨0, 32, 32, 3⟩⟩)],
    regions := [stC1region], flusherQueues := [[]], cleanRegions := [] }

/-- C1 (code-bug evidence): the reclaimer's `Runner::run` never calls
`Region::advance`.  Processing a reclaim task for a fully drained region at
version 3 purges its catalog entries and releases it to the clean queue, but
leaves the region's version at 3 — not strictly greater — so a subsequent
read carrying the old non-zero version 3 still passes the version check
instead of observing a mismatch (`Region::advance`, which would bump the
version to 4, exists but is never invoked). -/
theorem reclaim_leaves_version_unchanged :
    Reclaimer.runTask sC1 0 =
      some { sequence := 10, catalog := [], regions := [stC1region],
             flusherQueues := [[]], cleanRegions := [0] } ∧
    stC1region.version = 3 ∧
    (Region.load stC1region 32 64 3).map (fun p => p.1.isSome) = some true ∧
    (Region.advance stC1region).2.version = 4 :=
  ⟨rfl, rfl, rfl, rfl⟩

/-- A fresh region over zeroed device bytes: its first aligned block holds
magic 0 instead of `REGION_MAGIC`. -/
def regionC6 : RegionState := Region.new devW 0 bufW

/-- C6 (code-bug evidence): `RegionHeader::read` in `src/region.rs` returns
the header without validating the magic, so `RegionEntryIter::open` (whose
`let Ok(_) = RegionHeader::read(..)` expects a fallible read) never takes
its treat-as-clean branch: on a region whose first block carries magic 0,
the iterator is opened anyway and `recover_region` reports the region as
recovered (eviction push, max sequence 0) instead of releasing it to the
clean-region queue. -/
theorem recovery_bad_magic_region_not_clean :
    RegionHeader.read (List.replicate 32 0) = some ⟨0⟩ ∧
    (0 : Nat) ≠ REGION_MAGIC ∧
    (RegionEntryIter.open devW regionC6).map (fun p => p.1) =
      some (some 32) ∧
    (GenericStore.recover_region devW envN regionC6 []).map
      (fun o => (o.result, o.catalog.length)) = some (some 0, 0) :=
  ⟨rfl, by decide, rfl, rfl⟩

/-! ### Writer drop path (C3) -/

/-- A writer for one admission policy on which neither `judge` nor `finish`
was called. -/
def wC3 : GenericStoreWriter Nat := GenericStoreWriter.new 1 .none 42 7

/-- Counterexample to C3 as stated: dropping an unfinished writer on which
`judge()` was never called delivers no `on_drop` at all (the loop over the
admission policies is guarded by `is_judged`), although one admission policy
is configured; a `dropped` sample is emitted. -/
theorem writer_drop_unjudged_counterexample :
    wC3.is_inserted = false ∧
    (GenericStoreWriter.dropEffects 1 wC3).onDrops.length = 0 ∧
    (GenericStoreWriter.dropEffects 1 wC3).onDrops.length ≠ 1 ∧
    (GenericStoreWriter.dropEffects 1 wC3).sample = some .dropped := by
  decide

/-- C3 (amended): dropping a Writer on which `finish` was not called
delivers `on_drop` to every configured admission policy exactly once if
`judge()` had been called, and to none otherwise; it emits a filtered
latency sample if `judge()` had been called and judged false, otherwise a
dropped sample. -/
theorem writer_drop_spec {K : Type} (n : Nat) (w : GenericStoreWriter K)
    (hnotfin : w.is_inserted = false) :
    ((w.dropEffects n).onDrops.map Prod.fst =
      if w.is_judged then List.range n else []) ∧
    ((w.dropEffects n).onDrops.length = if w.is_judged then n else 0) ∧
    ((w.dropEffects n).sample =
      some (if w.is_judged && !w.judges.judge then .filtered else .dropped)) := by
  unfold GenericStoreWriter.dropEffects
  rw [if_neg (by simp [hnotfin])]
  cases hj : w.is_judged <;> simp
  rw [show (Prod.fst ∘ fun i => (i, w.judges.get i)) = id from rfl]
  exact List.map_id _

/-- The same writer after a judgement round that judged false. -/
def wC3j : GenericStoreWriter Nat :=
  { wC3 with is_judged := true, judges := ⟨[false], [true]⟩ }

/-- Witness for `writer_drop_spec`: a judged-false unfinished writer gets
exactly one `on_drop` for its single policy and a filtered sample. -/
theorem writer_drop_spec_witness :
    ((GenericStoreWriter.dropEffects 1 wC3j).onDrops.map Prod.fst = [0]) ∧
    ((GenericStoreWriter.dropEffects 1 wC3j).onDrops.length = 1) ∧
    ((GenericStoreWriter.dropEffects 1 wC3j).sample = some .filtered) :=
  writer_drop_spec 1 wC3j rfl

/-! ### Commit path (C4) -/

theorem judge_key_some {K : Type} (policies : Policies K)
    (w : GenericStoreWriter K) (k : K) (hkey : w.key = some k) :
    ∃ b w', GenericStoreWriter.judge policies w = some (b, w') ∧
      w'.key = some k ∧ b = w'.judges.judge := by
  cases hjd : w.is_judged
  · refine ⟨_, { w with
      judges := (List.enum policies).foldl
        (fun js (ip : Nat × (K → Nat → Bool)) => js.set ip.1 (ip.2 k w.weight))
        w.judges,
      is_judged := true }, ?_, hkey, rfl⟩
    unfold GenericStoreWriter.judge GenericStore.judge_inner
    rw [hjd, hkey]
    rfl
  · refine ⟨_, w, ?_, hkey, rfl⟩
    unfold GenericStoreWriter.judge
    rw [hjd]
    rfl

/-- C4: `finish(value)` (which runs `apply_writer`) returns `Ok(false)` if
and only if the combined admission judgement rejects the entry; on
rejection the store (catalog and flusher queues alike) is untouched and no
`on_insert` is delivered; on admission it returns `Ok(true)` after
inserting an `Inflight` catalog item for the key and delivering `on_insert`
to every admission policy, handing the entry to flusher
`sequence % F`. -/
theorem apply_writer_spec {K V : Type} [DecidableEq K] (policies : Policies K)
    (s : StoreState K V) (w : GenericStoreWriter K) (value : V) (k : K)
    (b : Bool) (w' : GenericStoreWriter K)
    (hkey : w.key = some k) (hF : 0 < s.flusherQueues.length)
    (hjudge : GenericStoreWriter.judge policies w = some (b, w'))
    (hk' : w'.key = some k) :
    (b = false →
      GenericStore.apply_writer policies s w value = some (false, s, [])) ∧
    (b = true → ∃ seq s1,
      ((w'.sequence = some seq ∧ s1 = s) ∨
       (w'.sequence = Option.none ∧ seq = s.sequence ∧
         s1 = { s with sequence := s.sequence + 1 })) ∧
      GenericStore.apply_writer policies s w value = some (true,
        { s1 with
          catalog := Catalog.insert s1.catalog k ⟨seq, .inflight k value⟩,
          flusherQueues := s1.flusherQueues.set
            (seq % s1.flusherQueues.length)
            (s1.flusherQueues.getD (seq % s1.flusherQueues.length) [] ++
              [⟨seq, k, value, w'.compression⟩]) },
        (List.range policies.length).map (fun i => (i, w'.judges.get i)))) ∧
    (∀ res s' ev,
      GenericStore.apply_writer policies s w value = some (res, s', ev) →
      (res = false ↔ b = false)) := by
  have hA : b = false →
      GenericStore.apply_writer policies s w value = some (false, s, []) := by
    intro hb
    subst hb
    unfold GenericStore.apply_writer
    rw [hjudge]
  have hB : b = true → ∃ seq s1,
      ((w'.sequence = some seq ∧ s1 = s) ∨
       (w'.sequence = Option.none ∧ seq = s.sequence ∧
         s1 = { s with sequence := s.sequence + 1 })) ∧
      GenericStore.apply_writer policies s w value = some (true,
        { s1 with
          catalog := Catalog.insert s1.catalog k ⟨seq, .inflight k value⟩,
          flusherQueues := s1.flusherQueues.set
            (seq % s1.flusherQueues.length)
            (s1.flusherQueues.getD (seq % s1.flusherQueues.length) [] ++
              [⟨seq, k, value, w'.compression⟩]) },
        (List.range policies.length).map (fun i => (i, w'.judges.get i))) := by
    intro hb
    subst hb
    cases hseq : w'.sequence with
    | some sq =>
      refine ⟨sq, s, Or.inl ⟨rfl, rfl⟩, ?_⟩
      unfold GenericStore.apply_writer
      rw [hjudge]
      simp only [hseq, hk', if_pos hF]
    | none =>
      refine ⟨s.sequence, { s with sequence := s.sequence + 1 },
        Or.inr ⟨rfl, rfl, rfl⟩, ?_⟩
      unfold GenericStore.apply_writer
      rw [hjudge]
      simp only [hseq, hk', if_pos hF]
  refine ⟨hA, hB, fun res s' ev happ => ?_⟩
  cases b
  · rw [hA rfl] at happ
    simp only [Option.some.injEq, Prod.mk.injEq] at happ
    simp [happ.1]
  · obtain ⟨seq, s1, -, heq⟩ := hB rfl
    rw [heq] at happ
    simp only [Option.some.injEq, Prod.mk.injEq] at happ
    obtain ⟨h1, -⟩ := happ
    rw [← h1]

/-- A writer for a single always-admitting policy. -/
def wC4 : GenericStoreWriter Nat := GenericStoreWriter.new 1 .none 42 7

def polW : Policies Nat := [fun _ _ => true]

/-- `wC4` after its judgement round (all judges true). -/
def wC4j : GenericStoreWriter Nat :=
  { wC4 with judges := ⟨[true], [true]⟩, is_judged := true }

/-- An empty store with a single flusher queue. -/
def sC4 : StoreState Nat Nat :=
  { sequence := 0, catalog := [], regions := [], flusherQueues := [[]],
    cleanRegions := [] }

/-- Witness for `apply_writer_spec`: the always-admitting policy admits the
entry; `finish` returns `Ok(true)`, inserts the `Inflight` item, delivers
the single `on_insert` and hands the entry to the only flusher. -/
theorem apply_writer_spec_witness :
    (true = false →
      GenericStore.apply_writer polW sC4 wC4 99 = some (false, sC4, [])) ∧
    (true = true → ∃ seq s1,
      ((wC4j.sequence = some seq ∧ s1 = sC4) ∨
       (wC4j.sequence = Option.none ∧ seq = sC4.sequence ∧
         s1 = { sC4 with sequence := sC4.sequence + 1 })) ∧
      GenericStore.apply_writer polW sC4 wC4 99 = some (true,
        { s1 with
          catalog := Catalog.insert s1.catalog 42 ⟨seq, .inflight 42 99⟩,
          flusherQueues := s1.flusherQueues.set
            (seq % s1.flusherQueues.length)
            (s1.flusherQueues.getD (seq % s1.flusherQueues.length) [] ++
              [⟨seq, 42, 99, wC4j.compression⟩]) },
        (List.range polW.length).map (fun i => (i, wC4j.judges.get i)))) ∧
    (∀ res s' ev,
      GenericStore.apply_writer polW sC4 wC4 99 = some (res, s', ev) →
      (res = false ↔ true = false)) :=
  apply_writer_spec polW sC4 wC4 99 42 true wC4j rfl (by decide) rfl rfl

end Foyer
